import Mathlib

/-!
Shallow embedding of `src/headerhawk.py` (HeaderHawk, a security-header
checker): URL normalization, the two-attempt header fetch with SSL fallback,
value truncation, and the sequential batch-processing loop, together with
proofs of the specified properties.

Python strings are modelled as Lean `String`s; Python dicts over string keys
as association lists with unique keys in insertion order; console output and
`time.sleep` as an explicit event trace; the network boundary (`requests.get`)
as a function from URL and verification flag to an outcome.
-/

namespace HeaderHawk

/-- `HEADERS_TO_CHECK` from the source: the fixed four tracked security
headers, in order. -/
def HEADERS_TO_CHECK : List String :=
  ["content-security-policy", "x-frame-options", "strict-transport-security",
   "referrer-policy"]

/-- `MAX_HEADER_LENGTH` from the source. -/
def MAX_HEADER_LENGTH : Nat := 80

/-- `RATE_LIMIT_DELAY` from the source: seconds slept between requests. -/
def RATE_LIMIT_DELAY : Nat := 2

/-- Python `d[k] = v` on a `dict[str, str]`: overwrite the value in place if
the key is present, else append the new pair. -/
def dictInsert : List (String × String) → String → String → List (String × String)
  | [], k, v => [(k, v)]
  | (k', v') :: rest, k, v =>
      if k' = k then (k', v) :: rest else (k', v') :: dictInsert rest k v

/-- Python `d.get(k, dflt)` on a `dict[str, str]`. -/
def dictGet (d : List (String × String)) (k dflt : String) : String :=
  (d.lookup k).getD dflt

/-- Python `chr.lower()` for the ASCII range (all the program lowercases are
ASCII header names). -/
def pyCharLower : Char → Char
  | 'A' => 'a' | 'B' => 'b' | 'C' => 'c' | 'D' => 'd' | 'E' => 'e' | 'F' => 'f'
  | 'G' => 'g' | 'H' => 'h' | 'I' => 'i' | 'J' => 'j' | 'K' => 'k' | 'L' => 'l'
  | 'M' => 'm' | 'N' => 'n' | 'O' => 'o' | 'P' => 'p' | 'Q' => 'q' | 'R' => 'r'
  | 'S' => 's' | 'T' => 't' | 'U' => 'u' | 'V' => 'v' | 'W' => 'w' | 'X' => 'x'
  | 'Y' => 'y' | 'Z' => 'z' | c => c

/-- Python `s.lower()`. -/
def pyLower (s : String) : String := String.mk (s.data.map pyCharLower)

/-- Python `s.startswith(p)`. -/
def pyStartsWith (s p : String) : Bool := List.isPrefixOf p.data s.data

/-- Outcome of one `requests.get` call at the network boundary: a successful
response carrying its headers, a `requests.exceptions.SSLError`
(certificate-trust failure), or any other exception; the two exception
outcomes carry the Python exception message. -/
inductive FetchOutcome where
  | success (headers : List (String × String))
  | sslError (msg : String)
  | failure (msg : String)
deriving DecidableEq

/-- A network model: the outcome of `requests.get` for a given URL and
certificate-verification flag. -/
def Net : Type := String → Bool → FetchOutcome

/-- An observable side effect of the core: a console message or a
`time.sleep` pause. -/
inductive Event where
  | print (msg : String)
  | sleep (seconds : Nat)
deriving DecidableEq

/-- Whether an event is a `time.sleep` pause. -/
def isSleep : Event → Bool
  | .sleep _ => true
  | .print _ => false

/-- The dict comprehension in `get_headers` lowering all response-header
names; as in a Python dict, a later duplicate key overwrites an earlier
one. -/
def lowerHeaders (hs : List (String × String)) : List (String × String) :=
  hs.foldl (fun d kv => dictInsert d (pyLower kv.1) kv.2) []

/-- The degraded snapshot built in `get_headers`' exception handlers: every
tracked header mapped to an error string holding the exception message. -/
def errorSnapshot (msg : String) : List (String × String) :=
  HEADERS_TO_CHECK.map (fun h => (h, "Error: " ++ msg))

/-- `get_headers` from the source. Attempt 1 is a certificate-verified GET;
its success returns the lower-cased response headers. On `SSLError` a warning
is printed and the GET is retried with verification disabled; any failure of
that retry, and any non-SSL failure of attempt 1, returns the degraded
snapshot. Returns the printed events paired with the resulting snapshot. -/
def get_headers (net : Net) (url : String) : List Event × List (String × String) :=
  match net url true with
  | .success hs => ([], lowerHeaders hs)
  | .sslError _ =>
      let warn := Event.print ("[yellow]Warning: SSL verification failed for " ++ url ++ "[/yellow]")
      match net url false with
      | .success hs => ([warn], lowerHeaders hs)
      | .sslError m => ([warn], errorSnapshot m)
      | .failure m => ([warn], errorSnapshot m)
  | .failure m => ([], errorSnapshot m)

/-- `truncate_value` from the source: a value longer than `MAX_HEADER_LENGTH`
becomes its first `MAX_HEADER_LENGTH` characters followed by `"..."`; shorter
values pass through unchanged. -/
def truncate_value (value : String) : String :=
  if value.length > MAX_HEADER_LENGTH then
    String.mk (value.data.take MAX_HEADER_LENGTH) ++ "..."
  else value

/-- `validate_and_format_url` from the source, parameterised by the external
generic URL-syntax validator (the third-party `validators.url` call): prepend
`https://` when no `http://` or `https://` scheme is present, then validate;
on failure return the `ValueError` message carrying the attempted string. -/
def validate_and_format_url (validUrl : String → Bool) (url : String) :
    Except String String :=
  let url1 :=
    if pyStartsWith url "http://" || pyStartsWith url "https://" then url
    else "https://" ++ url
  if validUrl url1 then Except.ok url1
  else Except.error ("Invalid URL format: " ++ url1)

/-- Modelled from the spec: well-formedness of the part of a URL after its
scheme, for `validators_url` below — nonempty, containing a dot and no
spaces. -/
def validHost (rest : String) : Bool :=
  rest.length > 0 && rest.data.contains '.' && !(rest.data.contains ' ')

/-- Modelled from the spec: the generic URL-syntax validator is the external
`validators` library's `validators.url`, code not in this repository. Per the
spec it checks generic URL well-formedness: here, an explicit `http://` or
`https://` scheme followed by a well-formed remainder. -/
def validators_url (s : String) : Bool :=
  if pyStartsWith s "http://" then
    validHost (String.mk (s.data.drop 7))
  else if pyStartsWith s "https://" then
    validHost (String.mk (s.data.drop 8))
  else false

/-- The record-construction loop of `process_urls`: start from a dict holding
the URL field, then insert one field per tracked header — the truncated
snapshot value, defaulting to `"Missing"`. (The `isinstance(value, str)`
guard in the source is always true here, snapshot values being strings.) -/
def buildRecord (url : String) (headers : List (String × String)) :
    List (String × String) :=
  HEADERS_TO_CHECK.foldl
    (fun r h => dictInsert r h (truncate_value (dictGet headers h "Missing")))
    [("URL", url)]

/-- One iteration of the `process_urls` loop at 1-based `index` out of
`total`. Normalization failure is caught by the `except` clause: only the
error message is printed and no record is produced. Otherwise the progress
message is printed, the fetch runs, the record is built, and — when this is
not the last URL — the rate-limit message is printed and the pause taken. -/
def processStep (validUrl : String → Bool) (net : Net) (total index : Nat)
    (url : String) : List Event × Option (List (String × String)) :=
  match validate_and_format_url validUrl url with
  | .error e =>
      ([Event.print ("[red]Error processing " ++ url ++ ": " ++ e ++ "[/red]")], none)
  | .ok n =>
      let fetched := get_headers net n
      let evs := Event.print ("[cyan]Processing " ++ n ++ " (" ++ toString index
          ++ "/" ++ toString total ++ ")[/cyan]") :: fetched.1
      let tail :=
        if index < total then
          [Event.print ("[yellow]Rate limiting: waiting " ++ toString RATE_LIMIT_DELAY
              ++ " seconds...[/yellow]"),
           Event.sleep RATE_LIMIT_DELAY]
        else []
      (evs ++ tail, some (buildRecord n fetched.2))

/-- The loop of `process_urls` over the remaining URLs, carrying the 1-based
index of the next URL. -/
def processAux (validUrl : String → Bool) (net : Net) (total : Nat) :
    Nat → List String → List Event × List (List (String × String))
  | _, [] => ([], [])
  | index, url :: rest =>
      let step := processStep validUrl net total index url
      let next := processAux validUrl net total (index + 1) rest
      (step.1 ++ next.1,
       (match step.2 with | some r => [r] | none => []) ++ next.2)

/-- `process_urls` from the source: sequential per-URL processing with
1-based indices, returning all emitted events and the accumulated result
records in order. -/
def process_urls (validUrl : String → Bool) (net : Net) (urls : List String) :
    List Event × List (List (String × String)) :=
  processAux validUrl net urls.length 1 urls

/-- A concrete network model for examples: every GET succeeds and the
response carries exactly one tracked header (with non-canonical casing). -/
def exampleNet : Net :=
  fun _ _ => FetchOutcome.success [("Strict-Transport-Security", "max-age=63072000")]

/-- A concrete network model where every GET fails with a non-certificate
exception. -/
def downNet : Net := fun _ _ => FetchOutcome.failure "connection timed out"

/-- A concrete network model with a certificate-trust failure on verified
requests and a successful response on unverified ones. -/
def sslNet : Net :=
  fun _ verify =>
    if verify then FetchOutcome.sslError "certificate verify failed"
    else FetchOutcome.success [("X-Frame-Options", "DENY")]

/-- A concrete network model where the verified request hits a
certificate-trust failure and the unverified retry also fails. -/
def sslDownNet : Net :=
  fun _ verify =>
    if verify then FetchOutcome.sslError "certificate verify failed"
    else FetchOutcome.failure "handshake refused"

-- Sanity checks of the embedding on concrete inputs.

example : validate_and_format_url validators_url "example.com" =
    Except.ok "https://example.com" := rfl

example : validate_and_format_url validators_url "not a url" =
    Except.error "Invalid URL format: https://not a url" := rfl

example : truncate_value "max-age=63072000" = "max-age=63072000" := by decide

example :
    (process_urls validators_url exampleNet ["example.com"]).2 =
    [[("URL", "https://example.com"),
      ("content-security-policy", "Missing"),
      ("x-frame-options", "Missing"),
      ("strict-transport-security", "max-age=63072000"),
      ("referrer-policy", "Missing")]] := by decide

/-! ### Truncation lemmas -/

/-- Unfolding of `truncate_value` on an overlong value. -/
theorem truncate_value_of_gt (v : String) (h : v.length > MAX_HEADER_LENGTH) :
    truncate_value v = String.mk (v.data.take MAX_HEADER_LENGTH) ++ "..." := by
  unfold truncate_value
  rw [if_pos h]

/-- Unfolding of `truncate_value` on a value within the limit. -/
theorem truncate_value_of_le (v : String) (h : v.length ≤ MAX_HEADER_LENGTH) :
    truncate_value v = v := by
  unfold truncate_value
  rw [if_neg (by omega)]

/-- Length of a truncated value: at most the limit plus the three-dot
suffix. -/
theorem truncate_value_length_le (v : String) :
    (truncate_value v).length ≤ MAX_HEADER_LENGTH + 3 := by
  unfold truncate_value
  split
  · rw [String.length_append, String.length_mk, List.length_take]
    have h2 : ("..." : String).length = 3 := rfl
    omega
  · omega

/-- A truncated nonempty value is nonempty. -/
theorem truncate_value_length_pos (v : String) (h : 0 < v.length) :
    0 < (truncate_value v).length := by
  unfold truncate_value
  split
  · rw [String.length_append]
    have h2 : ("..." : String).length = 3 := rfl
    omega
  · exact h

/-- When the value exceeds the limit, the truncated form has length exactly
the limit plus three. -/
theorem truncate_value_length_of_gt (v : String) (h : v.length > MAX_HEADER_LENGTH) :
    (truncate_value v).length = MAX_HEADER_LENGTH + 3 := by
  unfold truncate_value
  rw [if_pos h, String.length_append, String.length_mk, List.length_take]
  have hv : v.length = v.data.length := rfl
  have h2 : ("..." : String).length = 3 := rfl
  omega

/-- C6: for every string value, a value longer than 80 characters is recorded
as its first 80 characters followed by "..."; a value of length at most 80 is
recorded unchanged; and truncation is idempotent. -/
theorem truncate_value_spec (v : String) :
    (v.length > 80 →
      truncate_value v = String.mk (v.data.take 80) ++ "...") ∧
    (v.length ≤ 80 → truncate_value v = v) ∧
    truncate_value (truncate_value v) = truncate_value v := by
  refine ⟨fun h => ?_, fun h => ?_, ?_⟩
  · unfold truncate_value MAX_HEADER_LENGTH
    rw [if_pos h]
  · unfold truncate_value MAX_HEADER_LENGTH
    rw [if_neg (by omega)]
  · by_cases h : v.length > MAX_HEADER_LENGTH
    · have h1 : truncate_value v = String.mk (v.data.take MAX_HEADER_LENGTH) ++ "..." :=
        truncate_value_of_gt v h
      have h2 : (truncate_value v).length = MAX_HEADER_LENGTH + 3 :=
        truncate_value_length_of_gt v h
      have h3 : truncate_value (truncate_value v) =
          String.mk ((truncate_value v).data.take MAX_HEADER_LENGTH) ++ "..." :=
        truncate_value_of_gt (truncate_value v) (by omega)
      have hlen : v.data.length > MAX_HEADER_LENGTH := by
        have hv : v.length = v.data.length := rfl
        omega
      have key : (String.mk (v.data.take MAX_HEADER_LENGTH) ++ "...").data.take MAX_HEADER_LENGTH
          = v.data.take MAX_HEADER_LENGTH := by
        rw [String.data_append]
        refine List.take_left' ?_
        show (v.data.take MAX_HEADER_LENGTH).length = MAX_HEADER_LENGTH
        rw [List.length_take]
        omega
      rw [h3, h1, key]
    · have h1 : truncate_value v = v := truncate_value_of_le v (by omega)
      rw [h1, h1]

/-- Witness for C6 at concrete inputs: an 81-character value is cut to its
first 80 characters plus dots, and a short value passes unchanged. -/
theorem truncate_value_spec_witness :
    truncate_value "aaaaaaaaaaaaaaaaaaaaaaaaaaaaaaaaaaaaaaaaaaaaaaaaaaaaaaaaaaaaaaaaaaaaaaaaaaaaaaaab" =
      "aaaaaaaaaaaaaaaaaaaaaaaaaaaaaaaaaaaaaaaaaaaaaaaaaaaaaaaaaaaaaaaaaaaaaaaaaaaaaaaa..." ∧
    truncate_value "max-age=63072000" = "max-age=63072000" := by
  constructor
  · have h := (truncate_value_spec
      "aaaaaaaaaaaaaaaaaaaaaaaaaaaaaaaaaaaaaaaaaaaaaaaaaaaaaaaaaaaaaaaaaaaaaaaaaaaaaaaab").1
      (by decide)
    rw [h]; decide
  · exact (truncate_value_spec "max-age=63072000").2.1 (by decide)

/-! ### URL normalization (C4) -/

/-- C4: normalization leaves the string untouched when it already begins with
`http://` or `https://` and otherwise prepends exactly `https://`; the result
is validated, failing with the invalid-URL error carrying the attempted
string exactly when the validator rejects it; `"not a url"` fails. -/
theorem validate_and_format_url_spec (validUrl : String → Bool) (url : String) :
    (pyStartsWith url "http://" = true ∨ pyStartsWith url "https://" = true →
      validate_and_format_url validUrl url =
        if validUrl url then Except.ok url
        else Except.error ("Invalid URL format: " ++ url)) ∧
    (pyStartsWith url "http://" = false ∧ pyStartsWith url "https://" = false →
      validate_and_format_url validUrl url =
        if validUrl ("https://" ++ url) then Except.ok ("https://" ++ url)
        else Except.error ("Invalid URL format: " ++ ("https://" ++ url))) ∧
    validate_and_format_url validators_url "not a url" =
      Except.error "Invalid URL format: https://not a url" := by
  refine ⟨fun h => ?_, fun h => ?_, rfl⟩
  · unfold validate_and_format_url
    rcases h with h | h <;> simp [h]
  · unfold validate_and_format_url
    simp [h.1, h.2]

/-- Witness for C4 at concrete inputs: a scheme-less URL gets `https://`
prepended, a URL with a scheme is kept as is, and `"not a url"` is
rejected. -/
theorem validate_and_format_url_spec_witness :
    validate_and_format_url validators_url "example.com" =
      Except.ok "https://example.com" ∧
    validate_and_format_url validators_url "http://example.com" =
      Except.ok "http://example.com" := by
  constructor
  · have h := (validate_and_format_url_spec validators_url "example.com").2.1
      (by constructor <;> decide)
    rw [h, if_pos (by decide)]
    rfl
  · have h := (validate_and_format_url_spec validators_url "http://example.com").1
      (Or.inl (by decide))
    rw [h, if_pos (by decide)]

/-! ### Record structure -/

/-- `buildRecord` unfolded: the URL field followed by the four tracked-header
fields in the order of `HEADERS_TO_CHECK`. -/
theorem buildRecord_eq (url : String) (hs : List (String × String)) :
    buildRecord url hs =
      [("URL", url),
       ("content-security-policy",
         truncate_value (dictGet hs "content-security-policy" "Missing")),
       ("x-frame-options",
         truncate_value (dictGet hs "x-frame-options" "Missing")),
       ("strict-transport-security",
         truncate_value (dictGet hs "strict-transport-security" "Missing")),
       ("referrer-policy",
         truncate_value (dictGet hs "referrer-policy" "Missing"))] := rfl

/-- The URL field of a built record. -/
theorem buildRecord_lookup_URL (url : String) (hs : List (String × String)) :
    (buildRecord url hs).lookup "URL" = some url := rfl

/-- The tracked-header fields of a built record: the truncated snapshot value,
defaulting to "Missing". -/
theorem buildRecord_lookup_tracked (url : String) (hs : List (String × String))
    (h : String) (hh : h ∈ HEADERS_TO_CHECK) :
    (buildRecord url hs).lookup h =
      some (truncate_value (dictGet hs h "Missing")) := by
  simp only [HEADERS_TO_CHECK, List.mem_cons, List.not_mem_nil, or_false] at hh
  rcases hh with rfl | rfl | rfl | rfl <;> rfl

/-- The field names of a built record, in order. -/
theorem buildRecord_keys (url : String) (hs : List (String × String)) :
    (buildRecord url hs).map Prod.fst = "URL" :: HEADERS_TO_CHECK := rfl

/-- The record `process_urls` produces for one raw URL: none when
normalization fails, otherwise the record built from the fetched snapshot of
the normalized URL. -/
def recordOf (validUrl : String → Bool) (net : Net) (u : String) :
    Option (List (String × String)) :=
  match validate_and_format_url validUrl u with
  | .ok n => some (buildRecord n (get_headers net n).2)
  | .error _ => none

/-- The record component of one loop iteration is `recordOf`, independent of
index and total. -/
theorem processStep_snd (validUrl : String → Bool) (net : Net)
    (total index : Nat) (u : String) :
    (processStep validUrl net total index u).2 = recordOf validUrl net u := by
  unfold processStep recordOf
  cases h : validate_and_format_url validUrl u <;> simp

/-- The records of the loop are the `filterMap` of `recordOf` over the
remaining URLs, independent of the starting index. -/
theorem processAux_records (validUrl : String → Bool) (net : Net) (total : Nat) :
    ∀ (urls : List String) (index : Nat),
      (processAux validUrl net total index urls).2 =
        urls.filterMap (recordOf validUrl net)
  | [], _ => rfl
  | u :: rest, index => by
      show ((match (processStep validUrl net total index u).2 with
          | some r => [r] | none => []) ++
          (processAux validUrl net total (index + 1) rest).2) =
        List.filterMap (recordOf validUrl net) (u :: rest)
      rw [processStep_snd, List.filterMap_cons]
      cases h : recordOf validUrl net u <;>
        simp [h, processAux_records validUrl net total rest (index + 1)]

/-- The records of `process_urls` are the `filterMap` of `recordOf`. -/
theorem process_urls_records (validUrl : String → Bool) (net : Net)
    (urls : List String) :
    (process_urls validUrl net urls).2 = urls.filterMap (recordOf validUrl net) :=
  processAux_records validUrl net urls.length urls 1

/-- Every record in the output arises from a successfully normalized URL. -/
theorem recordOf_eq_some (validUrl : String → Bool) (net : Net) (u : String)
    (r : List (String × String)) (h : recordOf validUrl net u = some r) :
    ∃ n, validate_and_format_url validUrl u = Except.ok n ∧
      r = buildRecord n (get_headers net n).2 := by
  unfold recordOf at h
  cases hv : validate_and_format_url validUrl u with
  | ok n => rw [hv] at h; exact ⟨n, rfl, (Option.some_inj.mp h).symm⟩
  | error e => rw [hv] at h; exact absurd h (by simp)

/-- C8: every ResultRecord produced by `process_urls` — whatever the fetch
outcome — has exactly one field per tracked header, for the fixed four-entry
set, plus the URL field, and no other fields, in that order. -/
theorem result_record_fields (validUrl : String → Bool) (net : Net)
    (urls : List String) (r : List (String × String))
    (hr : r ∈ (process_urls validUrl net urls).2) :
    r.map Prod.fst = "URL" :: HEADERS_TO_CHECK := by
  rw [process_urls_records] at hr
  rcases List.mem_filterMap.mp hr with ⟨u, _, hrec⟩
  rcases recordOf_eq_some _ _ _ _ hrec with ⟨n, _, rfl⟩
  exact buildRecord_keys ..

/-- Witness for C8: the record of a concrete run has exactly the URL field
plus the four tracked-header fields. -/
theorem result_record_fields_witness :
    ([("URL", "https://example.com"),
      ("content-security-policy", "Missing"),
      ("x-frame-options", "Missing"),
      ("strict-transport-security", "max-age=63072000"),
      ("referrer-policy", "Missing")] : List (String × String)).map Prod.fst =
      "URL" :: HEADERS_TO_CHECK :=
  result_record_fields validators_url exampleNet ["example.com"] _ (by decide)

/-- C10: every tracked-header field of every ResultRecord produced by
`process_urls` has length at most 83 — the 80-character truncation limit plus
the three-character suffix. -/
theorem result_record_field_length (validUrl : String → Bool) (net : Net)
    (urls : List String) (r : List (String × String)) (h : String)
    (hr : r ∈ (process_urls validUrl net urls).2) (hh : h ∈ HEADERS_TO_CHECK) :
    (dictGet r h "Missing").length ≤ MAX_HEADER_LENGTH + 3 := by
  rw [process_urls_records] at hr
  rcases List.mem_filterMap.mp hr with ⟨u, _, hrec⟩
  rcases recordOf_eq_some _ _ _ _ hrec with ⟨n, _, rfl⟩
  unfold dictGet
  rw [buildRecord_lookup_tracked _ _ _ hh]
  exact truncate_value_length_le _

/-- Witness for C10: a field of a concrete record obeys the 83-character
bound. -/
theorem result_record_field_length_witness :
    (dictGet [("URL", "https://example.com"),
      ("content-security-policy", "Missing"),
      ("x-frame-options", "Missing"),
      ("strict-transport-security", "max-age=63072000"),
      ("referrer-policy", "Missing")] "strict-transport-security" "Missing").length ≤
      MAX_HEADER_LENGTH + 3 :=
  result_record_field_length validators_url exampleNet ["example.com"] _
    "strict-transport-security" (by decide) (by decide)

/-- C3: `process_urls` is order-preserving, emitting exactly one record per
successfully normalizing input URL (the `filterMap` of the per-URL record),
so three valid URLs give their three records in order, and when the middle
URL fails normalization only the first and third records appear, in order. -/
theorem process_urls_order (validUrl : String → Bool) (net : Net) :
    (∀ urls, (process_urls validUrl net urls).2 =
      urls.filterMap (recordOf validUrl net)) ∧
    (∀ u1 u2 u3 n1 n2 n3,
      validate_and_format_url validUrl u1 = Except.ok n1 →
      validate_and_format_url validUrl u2 = Except.ok n2 →
      validate_and_format_url validUrl u3 = Except.ok n3 →
      (process_urls validUrl net [u1, u2, u3]).2 =
        [buildRecord n1 (get_headers net n1).2,
         buildRecord n2 (get_headers net n2).2,
         buildRecord n3 (get_headers net n3).2]) ∧
    (∀ u1 u2 u3 n1 n3 e,
      validate_and_format_url validUrl u1 = Except.ok n1 →
      validate_and_format_url validUrl u2 = Except.error e →
      validate_and_format_url validUrl u3 = Except.ok n3 →
      (process_urls validUrl net [u1, u2, u3]).2 =
        [buildRecord n1 (get_headers net n1).2,
         buildRecord n3 (get_headers net n3).2]) := by
  refine ⟨process_urls_records validUrl net, ?_, ?_⟩
  · intro u1 u2 u3 n1 n2 n3 h1 h2 h3
    rw [process_urls_records]
    simp [recordOf, h1, h2, h3]
  · intro u1 u2 u3 n1 n3 e h1 h2 h3
    rw [process_urls_records]
    simp [recordOf, h1, h2, h3]

/-- Witness for C3: a concrete all-valid batch keeps order, and a concrete
batch whose middle URL is invalid skips exactly that record. -/
theorem process_urls_order_witness :
    (process_urls validators_url exampleNet ["a.com", "b.com", "c.com"]).2 =
      [buildRecord "https://a.com" (get_headers exampleNet "https://a.com").2,
       buildRecord "https://b.com" (get_headers exampleNet "https://b.com").2,
       buildRecord "https://c.com" (get_headers exampleNet "https://c.com").2] ∧
    (process_urls validators_url exampleNet ["a.com", "not a url", "c.com"]).2 =
      [buildRecord "https://a.com" (get_headers exampleNet "https://a.com").2,
       buildRecord "https://c.com" (get_headers exampleNet "https://c.com").2] :=
  ⟨(process_urls_order validators_url exampleNet).2.1
      "a.com" "b.com" "c.com" _ _ _ rfl rfl rfl,
   (process_urls_order validators_url exampleNet).2.2
      "a.com" "not a url" "c.com" _ _ _ rfl rfl rfl⟩

/-! ### Fetch failure handling (C1, C2) -/

/-- `get_headers` on a successful verified attempt. -/
theorem get_headers_success (net : Net) (url : String)
    (hs : List (String × String)) (hsucc : net url true = FetchOutcome.success hs) :
    get_headers net url = ([], lowerHeaders hs) := by
  unfold get_headers
  rw [hsucc]

/-- When the verified attempt fails with a non-certificate exception, or the
unverified retry after a certificate failure does not succeed, the snapshot is
the degraded error map. -/
theorem get_headers_degraded (net : Net) (n : String)
    (hfail : (∃ m, net n true = FetchOutcome.failure m) ∨
      ((∃ m, net n true = FetchOutcome.sslError m) ∧
        ∀ hs, net n false ≠ FetchOutcome.success hs)) :
    ∃ m, (get_headers net n).2 = errorSnapshot m := by
  unfold get_headers
  rcases hfail with ⟨m, hm⟩ | ⟨⟨m, hm⟩, hno⟩
  · rw [hm]
    exact ⟨m, rfl⟩
  · rw [hm]
    cases hf : net n false with
    | success hs => exact absurd hf (hno hs)
    | sslError m2 => exact ⟨m2, rfl⟩
    | failure m2 => exact ⟨m2, rfl⟩

/-- Every tracked header of the degraded snapshot holds the error string. -/
theorem errorSnapshot_get (m h : String) (hh : h ∈ HEADERS_TO_CHECK) :
    dictGet (errorSnapshot m) h "Missing" = "Error: " ++ m := by
  simp only [HEADERS_TO_CHECK, List.mem_cons, List.not_mem_nil, or_false] at hh
  rcases hh with rfl | rfl | rfl | rfl <;> rfl

/-- C1: the fetch absorbs every failure: when the verified GET fails with a
non-certificate-trust exception (or the unverified fallback itself fails), the
loop still produces a record whose URL field is the normalized URL and whose
every tracked-header field is a non-empty error-describing string. -/
theorem degraded_fetch_record (validUrl : String → Bool) (net : Net)
    (total index : Nat) (raw n : String)
    (hnorm : validate_and_format_url validUrl raw = Except.ok n)
    (hfail : (∃ m, net n true = FetchOutcome.failure m) ∨
      ((∃ m, net n true = FetchOutcome.sslError m) ∧
        ∀ hs, net n false ≠ FetchOutcome.success hs)) :
    ∃ r, (processStep validUrl net total index raw).2 = some r ∧
      r.lookup "URL" = some n ∧
      ∀ h ∈ HEADERS_TO_CHECK, ∃ m,
        r.lookup h = some (truncate_value ("Error: " ++ m)) ∧
        0 < (truncate_value ("Error: " ++ m)).length := by
  rcases get_headers_degraded net n hfail with ⟨m, hsnap⟩
  refine ⟨buildRecord n (get_headers net n).2, ?_, buildRecord_lookup_URL .., ?_⟩
  · rw [processStep_snd]
    unfold recordOf
    rw [hnorm]
  · intro h hh
    refine ⟨m, ?_, ?_⟩
    · rw [buildRecord_lookup_tracked _ _ _ hh, hsnap, errorSnapshot_get m h hh]
    · refine truncate_value_length_pos _ ?_
      rw [String.length_append]
      have h7 : ("Error: " : String).length = 7 := rfl
      omega

/-- Witness for C1: with every GET failing on a timeout, a concrete URL still
yields a record carrying its normalized URL and error-string fields. -/
theorem degraded_fetch_record_witness :
    ∃ r, (processStep validators_url downNet 1 1 "example.com").2 = some r ∧
      r.lookup "URL" = some "https://example.com" ∧
      ∀ h ∈ HEADERS_TO_CHECK, ∃ m,
        r.lookup h = some (truncate_value ("Error: " ++ m)) ∧
        0 < (truncate_value ("Error: " ++ m)).length :=
  degraded_fetch_record validators_url downNet 1 1 "example.com"
    "https://example.com" rfl (Or.inl ⟨"connection timed out", rfl⟩)

/-- C2: the unverified GET is consulted only after the verified attempt fails
with a certificate-trust failure: two network models agreeing on the verified
call give identical fetch results whenever that call is not a trust failure;
and after a trust failure the warning for the URL is printed and a successful
unverified retry returns the lower-cased header mapping. -/
theorem ssl_fallback_spec (net net2 : Net) (url : String) :
    ((∀ m, net url true ≠ FetchOutcome.sslError m) →
      net url true = net2 url true →
      get_headers net url = get_headers net2 url) ∧
    (∀ m, net url true = FetchOutcome.sslError m →
      (get_headers net url).1 =
        [Event.print ("[yellow]Warning: SSL verification failed for " ++ url ++ "[/yellow]")] ∧
      ∀ hs, net url false = FetchOutcome.success hs →
        (get_headers net url).2 = lowerHeaders hs) := by
  constructor
  · intro hno heq
    unfold get_headers
    rw [← heq]
    cases h : net url true with
    | success hs => rfl
    | sslError m => exact absurd h (hno m)
    | failure m => rfl
  · intro m hm
    constructor
    · unfold get_headers
      rw [hm]
      cases hf : net url false <;> rfl
    · intro hs hf
      unfold get_headers
      rw [hm, hf]

/-- Witness for C2: on a concrete certificate-trust failure, the warning is
printed and the unverified retry's headers are returned lower-cased. -/
theorem ssl_fallback_spec_witness :
    (get_headers sslNet "https://example.com").1 =
      [Event.print "[yellow]Warning: SSL verification failed for https://example.com[/yellow]"] ∧
    (get_headers sslNet "https://example.com").2 =
      lowerHeaders [("X-Frame-Options", "DENY")] := by
  have h := (ssl_fallback_spec sslNet sslNet "https://example.com").2
    "certificate verify failed" rfl
  exact ⟨h.1.trans rfl, h.2 _ rfl⟩

/-! ### Case-insensitive header extraction (C5) -/

/-- Looking up the key just inserted. -/
theorem lookup_dictInsert_self (d : List (String × String)) (k v : String) :
    (dictInsert d k v).lookup k = some v := by
  induction d with
  | nil => simp [dictInsert, List.lookup]
  | cons kv rest ih =>
      obtain ⟨k1, v1⟩ := kv
      unfold dictInsert
      by_cases h : k1 = k
      · subst h
        simp [List.lookup]
      · rw [if_neg h]
        simpa [List.lookup, beq_eq_false_iff_ne.mpr (Ne.symm h)] using ih

/-- Inserting one key leaves the others' lookups unchanged. -/
theorem lookup_dictInsert_ne (d : List (String × String)) (k v k2 : String)
    (h : k2 ≠ k) :
    (dictInsert d k v).lookup k2 = d.lookup k2 := by
  induction d with
  | nil => simp [dictInsert, List.lookup, beq_eq_false_iff_ne.mpr h]
  | cons kv rest ih =>
      obtain ⟨k1, v1⟩ := kv
      unfold dictInsert
      by_cases h1 : k1 = k
      · subst h1
        simp [List.lookup, beq_eq_false_iff_ne.mpr h]
      · rw [if_neg h1]
        by_cases h2 : k2 = k1
        · subst h2
          simp [List.lookup]
        · simpa [List.lookup, beq_eq_false_iff_ne.mpr h2] using ih

/-- Folding the lowering insertion over pairs none of which lowers to `h`
leaves the lookup of `h` unchanged. -/
theorem lookup_lowerFold_no_match (h : String) :
    ∀ (hs d : List (String × String)),
      (∀ kv ∈ hs, pyLower kv.1 ≠ h) →
      ((hs.foldl (fun d kv => dictInsert d (pyLower kv.1) kv.2) d).lookup h) =
        d.lookup h
  | [], _, _ => rfl
  | kv :: rest, d, hno => by
      rw [List.foldl_cons,
        lookup_lowerFold_no_match h rest _ (fun kv2 h2 => hno kv2 (List.mem_cons_of_mem kv h2)),
        lookup_dictInsert_ne _ _ _ _ (fun he => hno kv (List.mem_cons_self ..) he.symm)]

/-- A tracked name that no response-header name lowers to is absent from the
lower-cased snapshot. -/
theorem lookup_lowerHeaders_no_match (hs : List (String × String)) (h : String)
    (hno : ∀ kv ∈ hs, pyLower kv.1 ≠ h) :
    (lowerHeaders hs).lookup h = none := by
  unfold lowerHeaders
  rw [lookup_lowerFold_no_match h hs [] hno]
  rfl

/-- When the lowered response-header names are distinct, the lower-cased
snapshot maps the lowered name of each response pair to that pair's value. -/
theorem lookup_lowerFold_mem (h k v : String) :
    ∀ (hs d : List (String × String)),
      (hs.map fun kv => pyLower kv.1).Nodup → (k, v) ∈ hs → pyLower k = h →
      ((hs.foldl (fun d kv => dictInsert d (pyLower kv.1) kv.2) d).lookup h) =
        some v
  | [], _, _, hmem, _ => absurd hmem (List.not_mem_nil _)
  | kv :: rest, d, hnodup, hmem, hlow => by
      rw [List.map_cons, List.nodup_cons] at hnodup
      rcases List.mem_cons.mp hmem with heq | hmem2
      · have hkv : kv = (k, v) := heq.symm
        subst hkv
        rw [List.foldl_cons,
          lookup_lowerFold_no_match h rest _ ?_,
          hlow, lookup_dictInsert_self]
        intro kv2 h2 habs
        refine hnodup.1 ?_
        have hk : pyLower (k, v).1 = pyLower kv2.1 := by
          show pyLower k = pyLower kv2.1
          rw [hlow, habs]
        rw [hk]
        exact List.mem_map_of_mem _ h2
      · exact lookup_lowerFold_mem h k v rest _ hnodup.2 hmem2 hlow

/-- C5: for a successful fetch, each tracked header present in the response
(matched case-insensitively, response names lowering without duplicates)
appears in the record under its canonical lower-case name with its truncated
value, each absent tracked header maps to "Missing", and the end-to-end
example record for `["example.com"]` is as specified. -/
theorem tracked_header_extraction (validUrl : String → Bool) (net : Net)
    (total index : Nat) (raw n : String) (hs : List (String × String))
    (hnorm : validate_and_format_url validUrl raw = Except.ok n)
    (hsucc : net n true = FetchOutcome.success hs) :
    (∃ r, (processStep validUrl net total index raw).2 = some r ∧
      ∀ h ∈ HEADERS_TO_CHECK,
        ((∀ kv ∈ hs, pyLower kv.1 ≠ h) → r.lookup h = some "Missing") ∧
        (∀ k v, (hs.map fun kv => pyLower kv.1).Nodup → (k, v) ∈ hs →
          pyLower k = h → r.lookup h = some (truncate_value v))) ∧
    (process_urls validators_url exampleNet ["example.com"]).2 =
      [[("URL", "https://example.com"),
        ("content-security-policy", "Missing"),
        ("x-frame-options", "Missing"),
        ("strict-transport-security", "max-age=63072000"),
        ("referrer-policy", "Missing")]] := by
  refine ⟨⟨buildRecord n (get_headers net n).2, ?_, ?_⟩, by decide⟩
  · rw [processStep_snd]
    unfold recordOf
    rw [hnorm]
  · intro h hh
    constructor
    · intro hno
      rw [buildRecord_lookup_tracked _ _ _ hh, get_headers_success net n hs hsucc]
      unfold dictGet
      rw [lookup_lowerHeaders_no_match hs h hno]
      rfl
    · intro k v hnodup hmem hlow
      rw [buildRecord_lookup_tracked _ _ _ hh, get_headers_success net n hs hsucc]
      unfold dictGet
      unfold lowerHeaders
      rw [lookup_lowerFold_mem h k v hs [] hnodup hmem hlow]
      rfl

/-- Witness for C5: the end-to-end example run, where the response carries
`Strict-Transport-Security` only. -/
theorem tracked_header_extraction_witness :
    (∃ r, (processStep validators_url exampleNet 1 1 "example.com").2 = some r ∧
      ∀ h ∈ HEADERS_TO_CHECK,
        ((∀ kv ∈ [(("Strict-Transport-Security" : String), ("max-age=63072000" : String))],
            pyLower kv.1 ≠ h) → r.lookup h = some "Missing") ∧
        (∀ k v,
          (([(("Strict-Transport-Security" : String), ("max-age=63072000" : String))].map
            fun kv => pyLower kv.1).Nodup) →
          (k, v) ∈ [(("Strict-Transport-Security" : String), ("max-age=63072000" : String))] →
          pyLower k = h → r.lookup h = some (truncate_value v))) ∧
    (process_urls validators_url exampleNet ["example.com"]).2 =
      [[("URL", "https://example.com"),
        ("content-security-policy", "Missing"),
        ("x-frame-options", "Missing"),
        ("strict-transport-security", "max-age=63072000"),
        ("referrer-policy", "Missing")]] :=
  tracked_header_extraction validators_url exampleNet 1 1 "example.com"
    "https://example.com" [("Strict-Transport-Security", "max-age=63072000")]
    rfl rfl

/-! ### Pacing (C7) -/

/-- The fetch itself never sleeps: its events are at most the SSL warning. -/
theorem get_headers_fst_shape (net : Net) (url : String) :
    (get_headers net url).1 = [] ∨ ∃ m, (get_headers net url).1 = [Event.print m] := by
  unfold get_headers
  cases net url true with
  | success hs => exact Or.inl rfl
  | failure m => exact Or.inl rfl
  | sslError m => cases net url false <;> exact Or.inr ⟨_, rfl⟩

/-- The fetch events contain no sleep. -/
theorem countP_sleep_get_headers (net : Net) (url : String) :
    ((get_headers net url).1.countP isSleep) = 0 := by
  rcases get_headers_fst_shape net url with h | ⟨m, h⟩ <;> rw [h] <;> rfl

/-- One successfully-normalizing loop iteration sleeps exactly once when it is
not the last URL, and never when it is. -/
theorem countP_sleep_processStep (validUrl : String → Bool) (net : Net)
    (total index : Nat) (u n : String)
    (hok : validate_and_format_url validUrl u = Except.ok n) :
    ((processStep validUrl net total index u).1.countP isSleep) =
      if index < total then 1 else 0 := by
  unfold processStep
  rw [hok]
  by_cases h : index < total <;>
    simp [h, List.countP_cons, List.countP_append, isSleep,
      countP_sleep_get_headers]

/-- Total sleep count of the loop tail: one per URL except the last. -/
theorem countP_sleep_processAux (validUrl : String → Bool) (net : Net)
    (total : Nat) :
    ∀ (urls : List String) (index : Nat),
      (∀ u ∈ urls, ∃ n, validate_and_format_url validUrl u = Except.ok n) →
      index + urls.length = total + 1 →
      ((processAux validUrl net total index urls).1.countP isSleep) =
        urls.length - 1
  | [], _, _, _ => rfl
  | u :: rest, index, hval, hlen => by
      obtain ⟨n, hn⟩ := hval u (List.mem_cons_self ..)
      show (((processStep validUrl net total index u).1 ++
        (processAux validUrl net total (index + 1) rest).1).countP isSleep) =
          (u :: rest).length - 1
      rw [List.countP_append,
        countP_sleep_processStep validUrl net total index u n hn,
        countP_sleep_processAux validUrl net total rest (index + 1)
          (fun v hv => hval v (List.mem_cons_of_mem u hv))
          (by simp only [List.length_cons] at hlen; omega)]
      cases rest with
      | nil =>
          have hnot : ¬ index < total := by
            simp only [List.length_cons, List.length_nil] at hlen
            omega
          rw [if_neg hnot]
          simp
      | cons r rs =>
          have hlt : index < total := by
            simp only [List.length_cons] at hlen
            omega
          rw [if_pos hlt]
          simp only [List.length_cons]
          omega

/-- Every loop iteration's event list begins with a console message. -/
theorem processStep_fst_shape (validUrl : String → Bool) (net : Net)
    (total index : Nat) (u : String) :
    ∃ msg tl, (processStep validUrl net total index u).1 = Event.print msg :: tl := by
  unfold processStep
  cases h : validate_and_format_url validUrl u with
  | error e => exact ⟨_, _, rfl⟩
  | ok n => exact ⟨_, _, rfl⟩

/-- The loop tail on a nonempty URL list emits at least one event. -/
theorem processAux_fst_ne_nil (validUrl : String → Bool) (net : Net)
    (total index : Nat) (u : String) (rest : List String) :
    (processAux validUrl net total index (u :: rest)).1 ≠ [] := by
  obtain ⟨msg, tl, hshape⟩ := processStep_fst_shape validUrl net total index u
  show (processStep validUrl net total index u).1 ++
    (processAux validUrl net total (index + 1) rest).1 ≠ []
  rw [hshape]
  simp

/-- The last event of the loop tail is never a sleep (the last URL's
iteration takes no pause, and no iteration ends in one). -/
theorem getLast_processAux_not_sleep (validUrl : String → Bool) (net : Net)
    (total : Nat) :
    ∀ (urls : List String) (index : Nat),
      (∀ u ∈ urls, ∃ n, validate_and_format_url validUrl u = Except.ok n) →
      index + urls.length = total + 1 →
      ∀ e, (processAux validUrl net total index urls).1.getLast? = some e →
        isSleep e = false
  | [], _, _, _ => by intro e he; exact absurd he (by simp [processAux])
  | [u], index, hval, hlen => by
      intro e he
      obtain ⟨n, hn⟩ := hval u (List.mem_cons_self ..)
      have hnot : ¬ index < total := by
        simp only [List.length_cons, List.length_nil] at hlen
        omega
      have hstep : (processAux validUrl net total index [u]).1 =
          Event.print ("[cyan]Processing " ++ n ++ " (" ++ toString index
            ++ "/" ++ toString total ++ ")[/cyan]") :: (get_headers net n).1 := by
        show (processStep validUrl net total index u).1 ++ [] =
          Event.print _ :: (get_headers net n).1
        unfold processStep
        rw [hn]
        rw [if_neg hnot]
        simp
      rw [hstep] at he
      rcases get_headers_fst_shape net n with hg | ⟨m, hg⟩ <;> rw [hg] at he <;>
        simp only [List.getLast?_singleton, List.getLast?_cons_cons,
          Option.some_inj] at he <;> rw [← he] <;> rfl
  | u :: r :: rs, index, hval, hlen => by
      intro e he
      rw [show (processAux validUrl net total index (u :: r :: rs)).1 =
        (processStep validUrl net total index u).1 ++
          (processAux validUrl net total (index + 1) (r :: rs)).1 from rfl,
        List.getLast?_append] at he
      cases hg : (processAux validUrl net total (index + 1) (r :: rs)).1.getLast? with
      | none =>
          exact absurd (List.getLast?_eq_none_iff.mp hg)
            (processAux_fst_ne_nil validUrl net total (index + 1) r rs)
      | some y =>
          rw [hg] at he
          simp only [Option.or_some, Option.some_inj] at he
          rw [← he]
          exact getLast_processAux_not_sleep validUrl net total (r :: rs) (index + 1)
            (fun v hv => hval v (List.mem_cons_of_mem u hv))
            (by simp only [List.length_cons] at hlen ⊢; omega) y hg

/-- C7: for a batch of N > 1 URLs that all normalize, the loop sleeps exactly
N − 1 times — each non-last iteration sleeps exactly once and the last never
does — and no sleep occurs before the first URL's processing or after the
last URL's. -/
theorem pacing_spec (validUrl : String → Bool) (net : Net)
    (urls : List String) (N : Nat)
    (hval : ∀ u ∈ urls, ∃ n, validate_and_format_url validUrl u = Except.ok n)
    (hN : urls.length = N) (h1 : 1 < N) :
    ((process_urls validUrl net urls).1.countP isSleep) = N - 1 ∧
    (∀ total index u n, validate_and_format_url validUrl u = Except.ok n →
      ((processStep validUrl net total index u).1.countP isSleep) =
        if index < total then 1 else 0) ∧
    (∀ e, (process_urls validUrl net urls).1.head? = some e →
      isSleep e = false) ∧
    (∀ e, (process_urls validUrl net urls).1.getLast? = some e →
      isSleep e = false) := by
  refine ⟨?_, fun total index u n hn =>
      countP_sleep_processStep validUrl net total index u n hn, ?_, ?_⟩
  · rw [show (process_urls validUrl net urls).1 =
      (processAux validUrl net urls.length 1 urls).1 from rfl,
      countP_sleep_processAux validUrl net urls.length urls 1 hval (by omega)]
    omega
  · intro e he
    cases hu : urls with
    | nil => rw [hu] at hN; simp at hN; omega
    | cons u rest =>
        subst hu
        obtain ⟨msg, tl, hshape⟩ := processStep_fst_shape validUrl net
          (u :: rest).length 1 u
        rw [show (process_urls validUrl net (u :: rest)).1 =
          (processStep validUrl net (u :: rest).length 1 u).1 ++
            (processAux validUrl net (u :: rest).length 2 rest).1 from rfl,
          hshape] at he
        simp only [List.cons_append, List.head?_cons, Option.some_inj] at he
        rw [← he]
        rfl
  · intro e he
    cases hu : urls with
    | nil => rw [hu] at hN; simp at hN; omega
    | cons u rest =>
        subst hu
        exact getLast_processAux_not_sleep validUrl net (u :: rest).length
          (u :: rest) 1 hval (by omega) e he

/-- Witness for C7: a concrete three-URL batch sleeps exactly twice. -/
theorem pacing_spec_witness :
    ((process_urls validators_url exampleNet
      ["a.com", "b.com", "c.com"]).1.countP isSleep) = 3 - 1 :=
  (pacing_spec validators_url exampleNet ["a.com", "b.com", "c.com"] 3
    (by
      intro u hu
      simp only [List.mem_cons, List.not_mem_nil, or_false] at hu
      rcases hu with rfl | rfl | rfl
      · exact ⟨_, rfl⟩
      · exact ⟨_, rfl⟩
      · exact ⟨_, rfl⟩)
    rfl (by omega)).1

/-! ### Progress message timing (C9) -/

/-- Counterexample to C9 as stated: in the source the progress message is
printed only after `validate_and_format_url` has succeeded, naming the
normalized URL. For the raw input `"not a url"`, which fails normalization,
the loop emits no progress event at all, only the error message; and for the
raw input `"example.com"` the first event names `"https://example.com"`, not
the raw input. -/
theorem progress_message_counterexample :
    (process_urls validators_url exampleNet ["not a url"]).1 =
      [Event.print "[red]Error processing not a url: Invalid URL format: https://not a url[/red]"] ∧
    (process_urls validators_url exampleNet ["example.com"]).1.head? =
      some (Event.print "[cyan]Processing https://example.com (1/1)[/cyan]") ∧
    "https://example.com" ≠ "example.com" := by
  refine ⟨by decide, by decide, by decide⟩

/-- C9 as amended: the progress side-effect is emitted only after successful
normalization, as the first event of the URL's handling, and names the
normalized URL; a URL failing normalization emits only the error side-effect
naming the raw input and the exception, with no progress event. -/
theorem progress_after_normalization (validUrl : String → Bool) (net : Net)
    (total index : Nat) (u : String) :
    (∀ n, validate_and_format_url validUrl u = Except.ok n →
      (processStep validUrl net total index u).1.head? =
        some (Event.print ("[cyan]Processing " ++ n ++ " (" ++ toString index
          ++ "/" ++ toString total ++ ")[/cyan]"))) ∧
    (∀ e, validate_and_format_url validUrl u = Except.error e →
      (processStep validUrl net total index u).1 =
        [Event.print ("[red]Error processing " ++ u ++ ": " ++ e ++ "[/red]")]) := by
  constructor
  · intro n hn
    unfold processStep
    rw [hn]
    rfl
  · intro e he
    unfold processStep
    rw [he]

/-- Witness for the amended C9 at concrete inputs. -/
theorem progress_after_normalization_witness :
    (processStep validators_url exampleNet 1 1 "example.com").1.head? =
      some (Event.print ("[cyan]Processing " ++ "https://example.com" ++ " ("
        ++ toString 1 ++ "/" ++ toString 1 ++ ")[/cyan]")) ∧
    (processStep validators_url exampleNet 1 1 "not a url").1 =
      [Event.print ("[red]Error processing " ++ "not a url" ++ ": "
        ++ "Invalid URL format: https://not a url" ++ "[/red]")] :=
  ⟨(progress_after_normalization validators_url exampleNet 1 1 "example.com").1
      "https://example.com" rfl,
   (progress_after_normalization validators_url exampleNet 1 1 "not a url").2
      "Invalid URL format: https://not a url" rfl⟩

end HeaderHawk
